import Mathlib

/-!
Shallow embedding of mfdread.py, a Mifare Classic dump parser.

The access-bit field of a sector trailer (4 bytes, hex chars 12..20 of the
trailer block) is modelled as a function from bit position to bit, indexed
most-significant-bit first, exactly the indexing of BitArray in the source.
Dumps and blocks are lists of byte values (Nat). The fallible size check of
print_info is an Except; the Python False sentinel for an undecodable
access-bit group is Option.none.
-/

set_option maxRecDepth 100000

namespace Mfdread

/-- Embedding of accbits_for_blocknum: decodes the access bits of block
blocknum from the 32-bit access field, returning none when the inverted
bits do not match (the source returns False there). -/
def accbits_for_blocknum (accbits_str : Nat → Bool) (blocknum : Nat) :
    Option (List Bool) :=
  let p : List Bool × List Bool :=
    if blocknum = 0 then
      ([accbits_str 11, accbits_str 23, accbits_str 19],
       [accbits_str 7, accbits_str 3, accbits_str 15])
    else if blocknum = 1 then
      ([accbits_str 10, accbits_str 22, accbits_str 18],
       [accbits_str 6, accbits_str 2, accbits_str 14])
    else if blocknum = 2 then
      ([accbits_str 9, accbits_str 21, accbits_str 17],
       [accbits_str 5, accbits_str 1, accbits_str 13])
    else if blocknum = 3 ∨ blocknum = 15 then
      ([accbits_str 8, accbits_str 20, accbits_str 16],
       [accbits_str 4, accbits_str 0, accbits_str 12])
    else ([false], [false])
  if p.1 = p.2.map (fun b => !b) then some p.1 else none

/-- Rendering of a bit list as a binary string, the .bin of BitArray. -/
def accbits_bin (bits : List Bool) : String :=
  String.mk (bits.map (fun b => if b then '1' else '0'))

/-- Lookup table of accbits_to_permission_sector, keys and values verbatim
from the source. -/
def permissions_sector : List (String × String) :=
  [("000", "- A | A   - | A A [read B]"),
   ("010", "- - | A   - | A - [read B]"),
   ("100", "- B | A/B - | - B"),
   ("110", "- - | A/B - | - -"),
   ("001", "- A | A   A | A A [transport]"),
   ("011", "- B | A/B B | - B"),
   ("101", "- - | A/B B | - -"),
   ("111", "- - | A/B - | - -")]

/-- Lookup table of accbits_to_permission_data, keys and values verbatim
from the source. -/
def permissions_data : List (String × String) :=
  [("000", "A/B | A/B   | A/B | A/B [transport]"),
   ("010", "A/B |  -    |  -  |  -  [r/w]"),
   ("100", "A/B |   B   |  -  |  -  [r/w]"),
   ("110", "A/B |   B   |   B | A/B [value]"),
   ("001", "A/B |  -    |  -  | A/B [value]"),
   ("011", "  B |   B   |  -  |  -  [r/w]"),
   ("101", "  B |  -    |  -  |  -  [r/w]"),
   ("111", " -  |  -    |  -  |  -  [r/w]")]

/-- Embedding of accbits_to_permission_sector: a BitArray argument is a
some value, the Python False sentinel is none and yields the empty
string. -/
def accbits_to_permission_sector (accbits : Option (List Bool)) : String :=
  match accbits with
  | some bits => (permissions_sector.lookup (accbits_bin bits)).getD "unknown"
  | none => ""

/-- Embedding of accbits_to_permission_data. -/
def accbits_to_permission_data (accbits : Option (List Bool)) : String :=
  match accbits with
  | some bits => (permissions_data.lookup (accbits_bin bits)).getD "unknown"
  | none => ""

/-- Embedding of accbit_info: the defaultdict with default False is a
total function returning none outside the keys that were assigned. -/
def accbit_info (accbits : Nat → Bool) (sector_size : Nat) :
    Nat → Option (List Bool) :=
  if sector_size = 15 then
    fun z => if z = sector_size then accbits_for_blocknum accbits sector_size
             else none
  else
    fun z => if z < 4 then accbits_for_blocknum accbits z else none

/-- Embedding of is_value_block over the 16 byte values of a block. -/
def is_value_block (b : Nat → Nat) : Bool :=
  (b 0 == b 8 && (b 0 ^^^ 0xFF) == b 4) &&
  (b 1 == b 9 && (b 1 ^^^ 0xFF) == b 5) &&
  (b 2 == b 10 && (b 2 ^^^ 0xFF) == b 6) &&
  (b 3 == b 11 && (b 3 ^^^ 0xFF) == b 7) &&
  (b 12 == b 14 && b 13 == b 15 && (b 12 ^^^ 0xFF) == b 13)

/-- Splitting a sector byte range into 16-byte blocks, as the list
comprehension over the hex string does with 32-char slices. -/
def chunkBlocks (sector : List Nat) : List (List Nat) :=
  (List.range ((sector.length + 15) / 16)).map
    (fun x => (sector.drop (16 * x)).take 16)

/-- Embedding of the sector-walking while loop of print_info. Fuel bounds
the iteration count; 300 exceeds the 40 sectors any accepted size needs,
so the zero-fuel branch is unreachable for the inputs print_info passes. -/
def walkAux (data : List Nat) (data_size : Nat) :
    Nat → Nat → Nat → Nat → List (List (List Nat))
  | 0, _, _, _ => []
  | fuel + 1, sector_number, start, stop =>
    let sector := (data.drop start).take (stop - start)
    let blocks := chunkBlocks sector
    let sn := sector_number + 1
    let st := if sn < 32 then start + 64
              else if sn = 32 then start + 64 else start + 256
    let en := if sn < 32 then stop + 64
              else if sn = 32 then stop + 256 else stop + 256
    blocks :: (if st = data_size then []
               else walkAux data data_size fuel sn st en)

/-- Embedding of the layout portion of print_info: the size check on the
true length, then the force-1K override, then the sector walk. -/
def print_info (data : List Nat) (force_1k : Bool) :
    Except String (List (List (List Nat))) :=
  if data.length = 4096 ∨ data.length = 1024 ∨ data.length = 320 then
    let data_size := if force_1k then 1024 else data.length
    Except.ok (walkAux data data_size 300 0 0 64)
  else
    Except.error ("Wrong file size: " ++ toString data.length ++
      " bytes.\nOnly 320, 1024 or 4096 bytes allowed.")

/-- Block-count-and-length shape of one sector of n bytes. -/
def sectorShape (n : Nat) : List Nat :=
  (List.range ((n + 15) / 16)).map (fun x => min 16 (n - 16 * x))

/-- Length-level image of walkAux, used to reason about the layout shape
independently of the byte contents. -/
def walkShape (dlen data_size : Nat) :
    Nat → Nat → Nat → Nat → List (List Nat)
  | 0, _, _, _ => []
  | fuel + 1, sector_number, start, stop =>
    let sn := sector_number + 1
    let st := if sn < 32 then start + 64
              else if sn = 32 then start + 64 else start + 256
    let en := if sn < 32 then stop + 64
              else if sn = 32 then stop + 256 else stop + 256
    sectorShape (min (stop - start) (dlen - start)) ::
      (if st = data_size then []
       else walkShape dlen data_size fuel sn st en)

/-- Shape of a layout result: per sector, the list of block lengths. -/
def layout_shape (data : List Nat) (force_1k : Bool) :
    Option (List (List Nat)) :=
  (print_info data force_1k).toOption.map (List.map (List.map List.length))

/-- Permission string print_info assigns to block z of sector q, where
rights is the blockrights entry of sector q and n_blocks its block
count. -/
def block_permission (q z n_blocks : Nat)
    (rights : Nat → Option (List Bool)) : String :=
  if q = 0 ∧ z = 0 then "-"
  else if z = n_blocks - 1 then accbits_to_permission_sector (rights z)
  else accbits_to_permission_data (rights z)

/-- Access-bits column print_info renders for one block: the binary code
when decoded, the ERR marker otherwise. -/
def accbits_display (accbits : Option (List Bool)) : String :=
  match accbits with
  | some bits => accbits_bin bits
  | none => "ERR"

/-- Pointwise bit flip of an access field at position p. -/
def flipBit (s : Nat → Bool) (p : Nat) : Nat → Bool :=
  fun i => if i = p then !s i else s i

/-- Check-bit (inverted-bit) positions of each access-bit group. -/
def checkPositions : Nat → List Nat
  | 0 => [7, 3, 15]
  | 1 => [6, 2, 14]
  | 2 => [5, 1, 13]
  | 3 => [4, 0, 12]
  | _ => []

/-- Byte-level image of flipping bit k (0 ≤ k < 128) of a 16-byte block:
bit k % 8 of byte k / 8 is complemented, bits counted from the least
significant end of the byte. -/
def flipBlockBit (b : Nat → Nat) (k : Nat) : Nat → Nat :=
  fun i => if i = k / 8 then b i ^^^ (2 ^ (k % 8)) else b i

/-- Canonical value-block byte pattern
00 00 00 01 FF FF FF FE 00 00 00 01 01 FE 01 FE. -/
def canonicalValueBlock : Nat → Nat :=
  fun i =>
    [0, 0, 0, 1, 0xFF, 0xFF, 0xFF, 0xFE, 0, 0, 0, 1, 1, 0xFE, 1, 0xFE].getD i 0

/-- Concrete access field with bits 0, 4 and 12 set: group 3 (equally,
group 15) decodes to the valid code 000, while the other groups fail
their redundancy check. -/
def exACField : Nat → Bool :=
  fun i => i = 0 || i = 4 || i = 12

/-- Total number of blocks the resolved layout assigns to a dump. -/
def layout_block_count (data : List Nat) (force_1k : Bool) : Option Nat :=
  (print_info data force_1k).toOption.map (fun m => (m.map List.length).sum)

end Mfdread

namespace Mfdread

/-! Helper lemmas shared across the verification. -/

theorem isSome_ite_eq {α : Type} {c : Prop} [Decidable c] {x : α} :
    ((if c then some x else none).isSome = true) ↔ c := by
  split <;> simp_all

theorem chunkBlocks_shape (s : List Nat) :
    (chunkBlocks s).map List.length = sectorShape s.length := by
  unfold chunkBlocks sectorShape
  rw [List.map_map]
  congr 1
  funext x
  simp [List.length_take, List.length_drop]

theorem walkAux_shape (data : List Nat) (data_size : Nat) :
    ∀ fuel sn st en,
      (walkAux data data_size fuel sn st en).map (List.map List.length) =
        walkShape data.length data_size fuel sn st en := by
  intro fuel
  induction fuel with
  | zero => intro sn st en; simp [walkAux, walkShape]
  | succ n ih =>
    intro sn st en
    simp only [walkAux, walkShape, List.map_cons]
    congr 1
    · rw [chunkBlocks_shape]
      congr 1
      simp [List.length_take, List.length_drop]
    · set st' := if sn + 1 < 32 then st + 64
                 else if sn + 1 = 32 then st + 64 else st + 256 with hst
      set en' := if sn + 1 < 32 then en + 64
                 else if sn + 1 = 32 then en + 256 else en + 256 with hen
      split
      · simp
      · exact ih _ _ _

theorem walkAux_count_shape (data : List Nat) (data_size : Nat)
    (fuel sn st en : Nat) :
    (walkAux data data_size fuel sn st en).map List.length =
      (walkShape data.length data_size fuel sn st en).map List.length := by
  rw [← walkAux_shape data data_size fuel sn st en, List.map_map]
  apply List.map_congr_left
  intro a _
  simp

/-- C1: for every 32-bit trailer access field and group g in 0..2, the
extractor reads the permission bits at positions 11-g, 23-g, 19-g, checks
them pairwise against the complements of the bits at 7-g, 3-g, 15-g, and
for group 3 or 15 reads 8, 20, 16 against complements of 4, 0, 12; on a
full match it returns the code assembled in read order and on any
mismatch it returns none. -/
theorem c1_access_bit_positions (s : Nat → Bool) :
    (∀ g, g < 3 →
      accbits_for_blocknum s g =
        (if s (11 - g) = !s (7 - g) ∧ s (23 - g) = !s (3 - g) ∧
            s (19 - g) = !s (15 - g)
         then some [s (11 - g), s (23 - g), s (19 - g)] else none)) ∧
    (∀ g, g = 3 ∨ g = 15 →
      accbits_for_blocknum s g =
        (if s 8 = !s 4 ∧ s 20 = !s 0 ∧ s 16 = !s 12
         then some [s 8, s 20, s 16] else none)) := by
  constructor
  · intro g hg
    interval_cases g <;> simp [accbits_for_blocknum]
  · intro g hg
    rcases hg with rfl | rfl <;> simp [accbits_for_blocknum]

theorem c1_access_bit_positions_witness :
    accbits_for_blocknum exACField 15 = some [false, false, false] ∧
    accbits_for_blocknum exACField 0 = none := by
  constructor
  · rw [(c1_access_bit_positions exACField).2 15 (Or.inr rfl)]
    decide
  · rw [(c1_access_bit_positions exACField).1 0 (by decide)]
    decide

/-- C5: is_value_block holds exactly when the four value bytes match
their copies and complements and the address bytes match their copies
and complement; it accepts the canonical pattern and rejects every
single-bit flip of it. -/
theorem c5_value_block_rule (b : Nat → Nat) :
    (is_value_block b = true ↔
      ((b 0 = b 8 ∧ b 0 ^^^ 0xFF = b 4) ∧
       (b 1 = b 9 ∧ b 1 ^^^ 0xFF = b 5) ∧
       (b 2 = b 10 ∧ b 2 ^^^ 0xFF = b 6) ∧
       (b 3 = b 11 ∧ b 3 ^^^ 0xFF = b 7) ∧
       (b 12 = b 14 ∧ b 13 = b 15 ∧ b 12 ^^^ 0xFF = b 13))) ∧
    is_value_block canonicalValueBlock = true ∧
    (∀ k, k < 128 → is_value_block (flipBlockBit canonicalValueBlock k) = false) := by
  refine ⟨?_, by decide, by decide⟩
  simp [is_value_block, and_assoc]

theorem c5_value_block_rule_witness :
    is_value_block canonicalValueBlock = true ∧
    is_value_block (flipBlockBit canonicalValueBlock 27) = false := by
  exact ⟨(c5_value_block_rule canonicalValueBlock).2.1,
    (c5_value_block_rule canonicalValueBlock).2.2 27 (by decide)⟩

/-- C7: a dump whose length is not 320, 1024 or 4096 makes print_info
fail with the size error carrying the observed length, with or without
the force-1K override, before any sector is produced. -/
theorem c7_size_check (data : List Nat) (force_1k : Bool)
    (h : data.length ≠ 320 ∧ data.length ≠ 1024 ∧ data.length ≠ 4096) :
    print_info data force_1k =
      Except.error ("Wrong file size: " ++ toString data.length ++
        " bytes.\nOnly 320, 1024 or 4096 bytes allowed.") := by
  obtain ⟨h1, h2, h3⟩ := h
  simp [print_info, h1, h2, h3]

theorem c7_size_check_witness :
    print_info [0] true =
      Except.error ("Wrong file size: " ++ toString (List.length [(0 : Nat)]) ++
        " bytes.\nOnly 320, 1024 or 4096 bytes allowed.") := by
  exact c7_size_check [0] true ⟨by decide, by decide, by decide⟩

/-- C8: both permission tables are total over the 8 three-bit codes: no
pattern maps to the fallback value unknown, in either the sector-trailer
or the data-block role. -/
theorem c8_tables_total (b1 b2 b3 : Bool) :
    accbits_to_permission_sector (some [b1, b2, b3]) ≠ "unknown" ∧
    accbits_to_permission_data (some [b1, b2, b3]) ≠ "unknown" := by
  cases b1 <;> cases b2 <;> cases b3 <;> exact ⟨by decide, by decide⟩

/-- C9: the manufacturer block, block 0 of sector 0, always receives the
fixed placeholder permission, whatever the trailer encodes. -/
theorem c9_manufacturer_block (n_blocks : Nat)
    (rights : Nat → Option (List Bool)) :
    block_permission 0 0 n_blocks rights = "-" := by
  simp [block_permission]

/-- C10: on the invalid marker both permission interpreters return the
empty string, a value different from unknown and from every table entry,
and the access column renders the ERR marker. -/
theorem c10_invalid_marker :
    accbits_to_permission_sector none = "" ∧
    accbits_to_permission_data none = "" ∧
    accbits_display none = "ERR" ∧
    ("" : String) ∉
      ("unknown" :: (permissions_sector.map Prod.snd ++
        permissions_data.map Prod.snd)) := by
  exact ⟨rfl, rfl, rfl, by decide⟩

theorem flip_check_invalid (s : Nat → Bool) (g p : Nat) (hg : g < 4)
    (hp : p ∈ checkPositions g)
    (hvalid : (accbits_for_blocknum s g).isSome = true) :
    accbits_for_blocknum (flipBit s p) g = none := by
  interval_cases g <;>
    simp only [checkPositions, List.mem_cons, List.not_mem_nil, or_false] at hp <;>
    simp [accbits_for_blocknum, isSome_ite_eq] at hvalid <;>
    obtain ⟨h1, h2, h3⟩ := hvalid <;>
    rcases hp with rfl | rfl | rfl <;>
    simp [accbits_for_blocknum, flipBit, h1, h2, h3]

theorem flip_other_unchanged (s : Nat → Bool) (g p g' : Nat) (hg : g < 4)
    (hp : p ∈ checkPositions g) (hg' : g' < 4) (hne : g' ≠ g) :
    accbits_for_blocknum (flipBit s p) g' = accbits_for_blocknum s g' := by
  interval_cases g <;> interval_cases g' <;>
    simp only [checkPositions, List.mem_cons, List.not_mem_nil, or_false] at hp <;>
    first
      | exact absurd rfl hne
      | rcases hp with rfl | rfl | rfl <;> simp [accbits_for_blocknum, flipBit]

/-- C6: if group g of a trailer validates, flipping one of its check
bits makes that group decode to none while every other group of the same
trailer, and every other entry of accbit_info, is unchanged; the flipped
group is merely marked invalid, never fatal. -/
theorem c6_mismatch_is_local (s : Nat → Bool) (g p : Nat) (hg : g < 4)
    (hp : p ∈ checkPositions g)
    (hvalid : (accbits_for_blocknum s g).isSome = true) :
    accbits_for_blocknum (flipBit s p) g = none ∧
    (∀ g', g' < 4 → g' ≠ g →
      accbits_for_blocknum (flipBit s p) g' = accbits_for_blocknum s g') ∧
    accbit_info (flipBit s p) 3 g = none ∧
    (∀ z, z < 4 → z ≠ g →
      accbit_info (flipBit s p) 3 z = accbit_info s 3 z) := by
  have hinv := flip_check_invalid s g p hg hp hvalid
  refine ⟨hinv, fun g' h h2 => flip_other_unchanged s g p g' hg hp h h2, ?_, ?_⟩
  · simp [accbit_info, hg, hinv]
  · intro z hz hne
    simp only [accbit_info]
    simp [hz, flip_other_unchanged s g p z hg hp hz hne]

theorem c6_mismatch_is_local_witness :
    accbits_for_blocknum (flipBit exACField 4) 3 = none ∧
    accbits_for_blocknum (flipBit exACField 4) 0 =
      accbits_for_blocknum exACField 0 ∧
    accbit_info (flipBit exACField 4) 3 3 = none ∧
    accbit_info (flipBit exACField 4) 3 0 = accbit_info exACField 3 0 := by
  obtain ⟨a, b, c, d⟩ :=
    c6_mismatch_is_local exACField 3 4 (by decide) (by decide) (by decide)
  exact ⟨a, b 0 (by decide) (by decide), c, d 0 (by decide) (by decide)⟩

/-- C2, counterexample: a large-sector trailer whose group 15 validates
to code 000 still gives data block 0 the empty permission, not the
data-table interpretation of the group-15 code, so data blocks do not
share the trailer group-15 access code. -/
theorem c2_large_sector_counterexample :
    accbit_info exACField 15 15 = some [false, false, false] ∧
    block_permission 32 0 16 (accbit_info exACField 15) = "" ∧
    accbits_to_permission_data (accbit_info exACField 15 15) =
      "A/B | A/B   | A/B | A/B [transport]" ∧
    block_permission 32 0 16 (accbit_info exACField 15) ≠
      accbits_to_permission_data (accbit_info exACField 15 15) := by
  exact ⟨by decide, by decide, by decide, by decide⟩

/-- C2, amended: in a large sector only the trailer entry 15 of
accbit_info carries the group-15 code; every data block 0..14 is
assigned none, is rendered with the ERR marker and receives the empty
permission string, whatever the trailer contains. -/
theorem c2_large_sector_blocks (s : Nat → Bool) (q z : Nat)
    (hq : q ≠ 0) (hz : z < 15) :
    accbit_info s 15 z = none ∧
    block_permission q z 16 (accbit_info s 15) = "" ∧
    accbits_display (accbit_info s 15 z) = "ERR" ∧
    accbit_info s 15 15 = accbits_for_blocknum s 15 := by
  have hz15 : z ≠ 15 := by omega
  have h1 : accbit_info s 15 z = none := by simp [accbit_info, hz15]
  refine ⟨h1, ?_, ?_, ?_⟩
  · simp [block_permission, hq, hz15, h1, accbits_to_permission_data]
  · simp [accbits_display, h1]
  · simp [accbit_info]

theorem c2_large_sector_blocks_witness :
    accbit_info exACField 15 0 = none ∧
    block_permission 32 0 16 (accbit_info exACField 15) = "" ∧
    accbits_display (accbit_info exACField 15 0) = "ERR" ∧
    accbit_info exACField 15 15 = accbits_for_blocknum exACField 15 := by
  exact c2_large_sector_blocks exACField 32 0 (by decide) (by decide)

/-- C3, counterexample: a 320-byte dump is partitioned into 5 sectors,
not 20. -/
theorem c3_layout_counterexample :
    (print_info (List.replicate 320 0) false).toOption.map List.length =
      some 5 ∧
    (5 : Nat) ≠ 20 := by
  exact ⟨rfl, by decide⟩

/-- C3, amended: without the override, a 320-byte dump resolves to 5
sectors of 4 blocks of 16 bytes (20 blocks total), a 1024-byte dump to
16 sectors of 4 blocks (64 blocks), and a 4096-byte dump to 32 sectors
of 4 blocks then 8 sectors of 16 blocks, 256 blocks total. -/
theorem c3_layout_partition (data : List Nat) :
    (data.length = 320 →
      layout_shape data false = some (List.replicate 5 (List.replicate 4 16)) ∧
      layout_block_count data false = some 20) ∧
    (data.length = 1024 →
      layout_shape data false = some (List.replicate 16 (List.replicate 4 16)) ∧
      layout_block_count data false = some 64) ∧
    (data.length = 4096 →
      layout_shape data false =
        some (List.replicate 32 (List.replicate 4 16) ++
              List.replicate 8 (List.replicate 16 16)) ∧
      layout_block_count data false = some 256) := by
  refine ⟨?_, ?_, ?_⟩ <;> intro h <;>
  · have hok : print_info data false =
        Except.ok (walkAux data data.length 300 0 0 64) := by
      simp [print_info, h]
    have hs := walkAux_shape data data.length 300 0 0 64
    have hc := walkAux_count_shape data data.length 300 0 0 64
    constructor
    · unfold layout_shape
      rw [hok]
      show some (List.map (List.map List.length)
        (walkAux data data.length 300 0 0 64)) = _
      rw [hs, h]
      decide
    · unfold layout_block_count
      rw [hok]
      show some (List.sum (List.map List.length
        (walkAux data data.length 300 0 0 64))) = _
      rw [hc, h]
      decide

theorem c3_layout_partition_witness :
    layout_shape (List.replicate 320 0) false =
      some (List.replicate 5 (List.replicate 4 16)) ∧
    layout_block_count (List.replicate 320 0) false = some 20 := by
  exact (c3_layout_partition (List.replicate 320 0)).1 (by simp)

/-- C4, counterexample: with the force-1K override a 320-byte dump is
walked to offset 1024, producing 16 window entries instead of the 5 the
same dump yields without the override, so the walk does not stop at
min of the dump length and 1024 and the partitions differ. -/
theorem c4_force_counterexample :
    (print_info (List.replicate 320 0) true).toOption.map List.length =
      some 16 ∧
    (print_info (List.replicate 320 0) false).toOption.map List.length =
      some 5 ∧
    (16 : Nat) ≠ 5 := by
  exact ⟨rfl, rfl, by decide⟩

/-- C4, amended: with the override set the walk stops when the offset
reaches the literal 1024, whatever the dump length: for 1024- and
4096-byte dumps this matches min of dump length and 1024 (16 small
sectors; for 1024-byte dumps the result equals the non-override one),
but a 320-byte dump is walked past its end into 5 real sectors followed
by 11 empty window entries. -/
theorem c4_force_stop (data : List Nat) :
    (data.length = 1024 ∨ data.length = 4096 →
      layout_shape data true = some (List.replicate 16 (List.replicate 4 16))) ∧
    (data.length = 1024 → print_info data true = print_info data false) ∧
    (data.length = 320 →
      layout_shape data true =
        some (List.replicate 5 (List.replicate 4 16) ++
          List.replicate 11 ([] : List Nat)) ∧
      layout_shape data false =
        some (List.replicate 5 (List.replicate 4 16))) := by
  refine ⟨?_, ?_, ?_⟩
  · intro h
    have hok : print_info data true =
        Except.ok (walkAux data 1024 300 0 0 64) := by
      rcases h with h | h <;> simp [print_info, h]
    have hs := walkAux_shape data 1024 300 0 0 64
    unfold layout_shape
    rw [hok]
    show some (List.map (List.map List.length)
      (walkAux data 1024 300 0 0 64)) = _
    rw [hs]
    rcases h with h | h <;> rw [h] <;> decide
  · intro h
    simp [print_info, h]
  · intro h
    have hok : print_info data true =
        Except.ok (walkAux data 1024 300 0 0 64) := by
      simp [print_info, h]
    have hok' : print_info data false =
        Except.ok (walkAux data data.length 300 0 0 64) := by
      simp [print_info, h]
    have hs := walkAux_shape data 1024 300 0 0 64
    have hs' := walkAux_shape data data.length 300 0 0 64
    constructor
    · unfold layout_shape
      rw [hok]
      show some (List.map (List.map List.length)
        (walkAux data 1024 300 0 0 64)) = _
      rw [hs, h]
      decide
    · unfold layout_shape
      rw [hok']
      show some (List.map (List.map List.length)
        (walkAux data data.length 300 0 0 64)) = _
      rw [hs', h]
      decide

theorem c4_force_stop_witness :
    layout_shape (List.replicate 1024 0) true =
      some (List.replicate 16 (List.replicate 4 16)) := by
  exact (c4_force_stop (List.replicate 1024 0)).1 (Or.inl (by simp))

end Mfdread
